import Mathlib

/-!
Verification of the aitable-mcp-server adapter and facade.

The TypeScript sources are shallowly embedded: each `fetchFromAPI` outcome is
an `Except String T` (`.ok` iff the HTTP response was 2xx, its body was valid
JSON and passed the zod schema; every failure mode throws, which the embedding
records as `.error msg`).  Mock servers are passed in explicitly, mirroring the
injected `fetch` implementation used by the repository's tests.  Record field
sets (`z.record(z.any())`) are modelled as opaque association lists.
-/

namespace Aitable

/-- A record as returned to callers: `{ id, fields }` (src/types.ts `AITableRecord`). -/
structure Rec where
  id : String
  fields : List (String × String)
deriving DecidableEq, Repr

/-- An AITable-dialect raw record `{ recordId, fields }`. -/
structure RawRec where
  recordId : String
  fields : List (String × String)
deriving DecidableEq, Repr

/-- Which upstream dialect an HTTP request went to: `primary` is the
Airtable-style endpoint tried first, `secondary` the AITable-style fallback. -/
inductive DialectCall where
  | primary
  | secondary
deriving DecidableEq, Repr

/-- One page of an Airtable-style list-records response:
`{ records, offset? }`.  A mocked paginating server is a list of such pages,
served in order, one per request. -/
structure AirtablePage where
  records : List Rec
  offset : Option String
deriving DecidableEq, Repr

/-- `AirtableService.listRecords` (src/unnamed/part_006 lines 72-96, also the
copy in part_012): a do/while loop that re-issues the request with the
returned offset and concatenates the pages' records until a response carries
no offset.  The mocked server hands out `pages` in order, one per request;
the result also counts the requests issued.  (An empty page list models a
server whose first fetch fails; the loop can never observe it under a
well-formed offset chain.) -/
def AirtableService.listRecords : List AirtablePage → List Rec × Nat
  | [] => ([], 0)
  | p :: rest =>
    match p.offset with
    | none => (p.records, 1)
    | some _ =>
      let r := AirtableService.listRecords rest
      (p.records ++ r.1, r.2 + 1)

/-- The primary-dialect branch of `AITableService.listRecords`
(src/src/aitableService.ts lines 256-282): it issues a single request and
returns that response's `records`, parsing but ignoring the `offset` field.
Viewed against the same page-serving mock server; `none` models a failed
first fetch (which would send the method to its fallback dialect). -/
def AITableService.listRecordsPrimaryAttempt : List AirtablePage → Option (List Rec × Nat)
  | [] => none
  | p :: _ => some (p.records, 1)

/-- A well-formed pagination chain: every page but the last carries an offset
token, the last does not. -/
def offsetChain : List AirtablePage → Bool
  | [] => true
  | [p] => p.offset.isNone
  | p :: q :: rest => p.offset.isSome && offsetChain (q :: rest)

/-- Concrete three-page mock server from the spec's pagination test:
pages 1 and 2 return an offset, page 3 does not. -/
def threePages : List AirtablePage :=
  [ ⟨[⟨"rec1", [("name", "A")]⟩], some "off1"⟩,
    ⟨[⟨"rec2", [("name", "B")]⟩], some "off2"⟩,
    ⟨[⟨"rec3", [("name", "C")]⟩], none⟩ ]

/-- The records of `threePages`, concatenated in order. -/
def threePagesAllRecords : List Rec :=
  [⟨"rec1", [("name", "A")]⟩, ⟨"rec2", [("name", "B")]⟩, ⟨"rec3", [("name", "C")]⟩]

/-- Escaping used by `AirtableService.searchRecords`
(src/unnamed/part_006 line 250): `searchTerm.replace(/["\\]/g, '\\$&')` —
every double quote and backslash is prefixed with a backslash. -/
def escapeFormulaChars : List Char → List Char
  | [] => []
  | c :: cs =>
    if c = '"' ∨ c = '\\' then '\\' :: c :: escapeFormulaChars cs
    else c :: escapeFormulaChars cs

/-- Escaping used by the `searchRecords` variant in src/unnamed/part_008
line 367: `searchTerm.replace(/"/g, '\\"')` — only double quotes are
prefixed; backslashes are left alone. -/
def escapeQuotes : List Char → List Char
  | [] => []
  | c :: cs =>
    if c = '"' then '\\' :: '"' :: escapeQuotes cs
    else c :: escapeQuotes cs

/-- Parser for the remainder of a double-quoted formula string literal, as an
Airtable-formula consumer would read it: a backslash escapes the following
character, an unescaped `"` closes the literal.  Returns the literal's
character content and the unconsumed rest, or `none` when the input ends
before the literal is closed. -/
def parseStringLit : List Char → Option (List Char × List Char)
  | [] => none
  | c :: cs =>
    if c = '"' then some ([], cs)
    else if c = '\\' then
      match cs with
      | [] => none
      | d :: ds =>
        match parseStringLit ds with
        | none => none
        | some (content, rest) => some (d :: content, rest)
    else
      match parseStringLit cs with
      | none => none
      | some (content, rest) => some (c :: content, rest)

/-- String-level wrapper of `escapeFormulaChars` (part_006). -/
def AirtableService.escapeTerm (s : String) : String :=
  ⟨escapeFormulaChars s.data⟩

/-- The `OR(FIND("term", {field}), ...)` filter formula built by
`AirtableService.searchRecords` (part_006 lines 253-257). -/
def AirtableService.buildFilterFormula (term : String) (searchFields : List String) : String :=
  "OR(" ++
    String.intercalate ","
      (searchFields.map (fun fid =>
        "FIND(\"" ++ AirtableService.escapeTerm term ++ "\", \x7b" ++ fid ++ "\x7d)")) ++
    ")"

/-- A base `{ id, name, permissionLevel }` (src/types.ts `BaseSchema`). -/
structure Base where
  id : String
  name : String
  permissionLevel : String
deriving DecidableEq, Repr

/-- An AITable space `{ id, name, isAdmin }` from the fallback `/spaces` endpoint. -/
structure Space where
  id : String
  name : String
  isAdmin : Bool
deriving DecidableEq, Repr

/-- A view `{ id, name, type }` (src/types.ts). -/
structure View where
  id : String
  name : String
  type : String
deriving DecidableEq, Repr

/-- A field as exposed to callers (src/types.ts `FieldSchema`): the id is
optional there, and `options` is an open bag abstracted here to an optional
opaque string. -/
structure Field where
  id : Option String
  name : String
  type : String
  description : Option String
  options : Option String
deriving DecidableEq, Repr

/-- A table (src/types.ts `TableSchema`). -/
structure Table where
  id : String
  name : String
  primaryFieldId : String
  fields : List Field
  views : List View
  description : String
deriving DecidableEq, Repr

/-- A raw field from the AITable `/datasheets/{id}/fields` endpoint
(src/src/aitableService.ts lines 187-195): `{ id, name, type, property?,
editable?, isPrimary?, desc? }`, with `property` abstracted to an opaque
string. -/
structure ApiField where
  id : String
  name : String
  type : String
  property : Option String
  editable : Option Bool
  isPrimary : Option Bool
  desc : Option String
deriving DecidableEq, Repr

/-- A node summary from the AITable `/spaces/{id}/nodes` listing. -/
structure NodeSummary where
  id : String
  name : String
  type : String
deriving DecidableEq, Repr

/-- Mock server for `AITableService.listBases`: the primary attempt parses to
`{ bases, offset? }`, the fallback to the space list. -/
structure ListBasesSrv where
  primary : Except String (List Base × Option String)
  secondary : Except String (List Space)

/-- `AITableService.listBases` (src/src/aitableService.ts lines 107-142):
try the Airtable-style metadata endpoint; on any failure fall back to the
AITable `/spaces` endpoint and map `{id, name, isAdmin}` to
`{id, name, permissionLevel: isAdmin ? 'owner' : 'read'}` with no offset.
The second component records the dialects called, in order. -/
def AITableService.listBases (srv : ListBasesSrv) :
    Except String (List Base × Option String) × List DialectCall :=
  match srv.primary with
  | .ok r => (.ok r, [.primary])
  | .error _ =>
    match srv.secondary with
    | .ok spaces =>
      (.ok (spaces.map (fun s => ⟨s.id, s.name, if s.isAdmin then "owner" else "read"⟩), none),
       [.primary, .secondary])
    | .error e => (.error e, [.primary, .secondary])

/-- Mock server for `AITableService.getBaseSchema`: the primary attempt parses
to the table list; the fallback lists nodes and then fetches fields and views
per datasheet node. -/
structure GetBaseSchemaSrv where
  primary : Except String (List Table)
  nodes : Except String (List NodeSummary)
  fieldsOf : String → Except String (List ApiField)
  viewsOf : String → Except String (List View)

/-- Assembly of one fallback table (src/src/aitableService.ts lines 218-239):
primary field is the one flagged `isPrimary`, else the first field, else the
id is the empty string; fields are mapped to the caller-facing shape (the
`property || {}` default is abstracted to an empty-string option). -/
def AITableService.buildFallbackTable (n : NodeSummary) (fs : List ApiField) (vs : List View) :
    Table :=
  let primaryField := fs.find? (fun f => f.isPrimary == some true)
  let primaryFieldId :=
    match primaryField with
    | some f => f.id
    | none =>
      match fs.head? with
      | some f => f.id
      | none => ""
  { id := n.id
    name := n.name
    primaryFieldId := primaryFieldId
    fields := fs.map (fun f => ⟨some f.id, f.name, f.type, f.desc, some (f.property.getD "")⟩)
    views := vs
    description := "" }

/-- `AITableService.getBaseSchema` (src/src/aitableService.ts lines 147-250):
try the Airtable-style metadata endpoint; on failure list `Datasheet` nodes
and, for each, fetch its fields and views, skipping (with a logged error) any
node whose per-table fetch fails.  The trace lists one `secondary` entry for
the node listing plus one per datasheet node processed. -/
def AITableService.getBaseSchema (srv : GetBaseSchemaSrv) :
    Except String (List Table) × List DialectCall :=
  match srv.primary with
  | .ok tables => (.ok tables, [.primary])
  | .error _ =>
    match srv.nodes with
    | .error e => (.error e, [.primary, .secondary])
    | .ok ns =>
      let dsNodes := ns.filter (fun n => n.type == "Datasheet")
      let tables := dsNodes.filterMap (fun n =>
        match srv.fieldsOf n.id with
        | .error _ => none
        | .ok fs =>
          match srv.viewsOf n.id with
          | .error _ => none
          | .ok vs => some (AITableService.buildFallbackTable n fs vs))
      (.ok tables, .primary :: .secondary :: dsNodes.map (fun _ => .secondary))

/-- Mock server for `AITableService.listRecords`: one Airtable-style response
(that branch issues a single request), and the AITable-style fallback. -/
structure ListRecordsSrv where
  primary : Except String AirtablePage
  secondary : Except String (List RawRec)

/-- `AITableService.listRecords` (src/src/aitableService.ts lines 255-322):
try the Airtable-style records endpoint and return that single response's
records; on failure fall back to the AITable records endpoint and map
`{recordId, fields}` to `{id, fields}`. -/
def AITableService.listRecords (srv : ListRecordsSrv) :
    Except String (List Rec) × List DialectCall :=
  match srv.primary with
  | .ok page => (.ok page.records, [.primary])
  | .error _ =>
    match srv.secondary with
    | .ok rs => (.ok (rs.map (fun r => ⟨r.recordId, r.fields⟩)), [.primary, .secondary])
    | .error e => (.error e, [.primary, .secondary])

/-- Mock server for `AITableService.getRecord`: the direct-by-id primary
attempt, and the `listRecords` server used by the filter-formula fallback. -/
structure GetRecordSrv where
  primary : Except String Rec
  fallback : ListRecordsSrv

/-- `AITableService.getRecord` (src/src/aitableService.ts lines 327-368):
try the direct Airtable-style fetch; on failure call `listRecords` with a
`RecordID` filter formula capped at 2 records; one match is returned, several
matches return the first, zero matches throw inside the inner try and are
re-wrapped by the inner catch into a combined error message. -/
def AITableService.getRecord (srv : GetRecordSrv) (recordId : String) :
    Except String Rec × List DialectCall :=
  match srv.primary with
  | .ok r => (.ok ⟨r.id, r.fields⟩, [.primary])
  | .error origErr =>
    let lr := AITableService.listRecords srv.fallback
    let trace := DialectCall.primary :: lr.2
    match lr.1 with
    | .error fe =>
      (.error ("aitable-mcp-server: Failed to get record " ++ recordId ++ ". Original error: " ++
        origErr ++ ". Fallback error: " ++ fe), trace)
    | .ok recs =>
      match recs with
      | [r] => (.ok r, trace)
      | [] =>
        (.error ("aitable-mcp-server: Failed to get record " ++ recordId ++ ". Original error: " ++
          origErr ++ ". Fallback error: aitable-mcp-server: Record " ++ recordId ++
          " not found using RecordID filter."), trace)
      | r :: _ :: _ => (.ok r, trace)

/-- A raw field from the AITable field-mutation endpoints:
`{ id, name, type, desc?, property? }`. -/
structure RawField where
  id : String
  name : String
  type : String
  desc : Option String
  property : Option String
deriving DecidableEq, Repr

/-- Outcome of a field-mutation operation: the result, the dialects called,
and whether the operation re-fetched the base schema afterwards. -/
structure FieldOpOutcome where
  result : Except String Field
  calls : List DialectCall
  refetchedSchema : Bool
deriving Repr

/-- Mock server for `AITableService.createField` / `updateField`: the
Airtable-style attempt parses directly to a `Field`; the AITable-style
fallback parses to a raw field. -/
structure FieldOpSrv where
  primary : Except String Field
  secondary : Except String RawField

/-- `AITableService.createField` (src/src/aitableService.ts lines 556-611):
try the Airtable-style field-creation endpoint and return its response body;
on failure call the AITable-style endpoint and convert `{id, name, type,
desc, property}` to the caller-facing field shape.  No schema re-fetch is
performed on either path. -/
def AITableService.createField (srv : FieldOpSrv) : FieldOpOutcome :=
  match srv.primary with
  | .ok f => ⟨.ok f, [.primary], false⟩
  | .error _ =>
    match srv.secondary with
    | .ok rf => ⟨.ok ⟨some rf.id, rf.name, rf.type, rf.desc, rf.property⟩,
        [.primary, .secondary], false⟩
    | .error e => ⟨.error e, [.primary, .secondary], false⟩

/-- `AITableService.updateField` (src/src/aitableService.ts lines 613-671):
same shape as `createField` — try Airtable-style PATCH, fall back to the
AITable-style PATCH and convert; no schema re-fetch on either path. -/
def AITableService.updateField (srv : FieldOpSrv) : FieldOpOutcome :=
  match srv.primary with
  | .ok f => ⟨.ok f, [.primary], false⟩
  | .error _ =>
    match srv.secondary with
    | .ok rf => ⟨.ok ⟨some rf.id, rf.name, rf.type, rf.desc, rf.property⟩,
        [.primary, .secondary], false⟩
    | .error e => ⟨.error e, [.primary, .secondary], false⟩

/-- A raw record from the AITable search endpoint: `{ recordId, data }`. -/
structure RawSearchRec where
  recordId : String
  data : List (String × String)
deriving DecidableEq, Repr

/-- Mock server for `AITableService.searchRecords`. -/
structure SearchSrv where
  primary : Except String (List Rec)
  secondary : Except String (List RawSearchRec)

/-- `AITableService.searchRecords` (src/src/aitableService.ts lines 673-744):
build the query string (`search`, `maxRecords`, `fields=join(fieldIds)`) and
try the Airtable-style search endpoint; on failure call the AITable-style
search endpoint and map `{recordId, data}` to `{id, fields}`.  `fieldIds` is
only joined into the URL — it is never validated against the table's schema,
and no schema fetch happens. -/
def AITableService.searchRecords (fieldIds : List String) (srv : SearchSrv) :
    Except String (List Rec) × List DialectCall :=
  match srv.primary with
  | .ok rs => (.ok rs, [.primary])
  | .error _ =>
    match srv.secondary with
    | .ok rs => (.ok (rs.map (fun r => ⟨r.recordId, r.data⟩)), [.primary, .secondary])
    | .error e => (.error e, [.primary, .secondary])

/-- Mock server for `AITableService.createTable`: the datasheet-creation call
(whose response is just `{ datasheetId }`) and the subsequent `getBaseSchema`
outcome. -/
structure CreateTableSrv where
  create : Except String String
  schema : Except String (List Table)

/-- `AITableService.createTable` (src/src/aitableService.ts lines 478-516):
issue the creation call, then re-fetch the full schema and locate the created
datasheet by id; throw an internal error when it cannot be found.  The second
component records whether the schema re-fetch was issued. -/
def AITableService.createTable (srv : CreateTableSrv) : Except String Table × Bool :=
  match srv.create with
  | .error e => (.error e, false)
  | .ok dsId =>
    match srv.schema with
    | .error e => (.error e, true)
    | .ok tables =>
      match tables.find? (fun t => t.id == dsId) with
      | some t => (.ok t, true)
      | none => (.error "aitable-mcp-server: Created datasheet not found in schema", true)

/-- Mock server for `AITableService.updateTable`. -/
structure UpdateTableSrv where
  update : Except String Bool
  schema : Except String (List Table)

/-- `AITableService.updateTable` (src/src/aitableService.ts lines 521-554):
issue the PATCH, then re-fetch the full schema and locate the table by its
id; throw an internal error when it cannot be found. -/
def AITableService.updateTable (tableId : String) (srv : UpdateTableSrv) :
    Except String Table × Bool :=
  match srv.update with
  | .error e => (.error e, false)
  | .ok _ =>
    match srv.schema with
    | .error e => (.error e, true)
    | .ok tables =>
      match tables.find? (fun t => t.id == tableId) with
      | some t => (.ok t, true)
      | none => (.error "aitable-mcp-server: Updated datasheet not found in schema", true)

/-- One entry of the AITable delete response: `{ recordId, deleted }`. -/
structure DeleteResult where
  recordId : String
  deleted : Bool
deriving DecidableEq, Repr

/-- `AITableService.deleteRecords` (src/src/aitableService.ts lines 449-473):
on a schema-valid response, keep the entries whose `deleted` flag is true and
return their record ids. -/
def AITableService.deleteRecords (response : Except String (List DeleteResult)) :
    Except String (List String) :=
  match response with
  | .error e => .error e
  | .ok results => .ok ((results.filter (fun r => r.deleted)).map (fun r => r.recordId))

/-- Modelled from the claim's words, for comparison with
`AITableService.deleteRecords`: exactly the ids whose result entry has
`deleted = true`, in server-response order. -/
def deletedIdsSpec (results : List DeleteResult) : List String :=
  results.filterMap (fun r => if r.deleted then some r.recordId else none)


/-- A discovered datasheet `{ id, name, path, spaceId }` (src/types.ts
`DatasheetInfo`). -/
structure DatasheetInfo where
  id : String
  name : String
  path : String
  spaceId : String
deriving DecidableEq, Repr

/-- A table as serialized by the `get_base_schema` tool: a `Table` optionally
augmented with a folder `path`. -/
structure TableP where
  id : String
  name : String
  primaryFieldId : String
  fields : List Field
  views : List View
  description : String
  path : Option String
deriving DecidableEq, Repr

/-- The JSON text of a tool-result content item, kept symbolic: each
constructor stands for `JSON.stringify` of the corresponding value. -/
inductive Payload where
  | jsonRecords (rs : List Rec)
  | jsonRecord (r : Rec)
  | jsonBases (bs : List Base)
  | jsonTables (ts : List Table)
  | jsonTable (t : Table)
  | jsonField (f : Field)
  | jsonIds (ids : List String)
  | jsonSchema (ts : List TableP)
  | jsonDatasheets (ds : List DatasheetInfo)
  | jsonErrorObj (msg : String)
  | jsonErrorString (msg : String)
deriving DecidableEq, Repr

/-- One content item of a tool result (`type`, `mimeType`, `text`). -/
structure ToolContent where
  type : String
  mimeType : String
  text : Payload
deriving DecidableEq, Repr

/-- A tool-result envelope.  The wired success branches omit `isError`, which
the protocol reads as `false`; the embedding records that as `isError = false`. -/
structure ToolResult where
  content : List ToolContent
  isError : Bool
deriving DecidableEq, Repr

/-- `formatToolResponse` (src/unnamed/part_003 lines 39-48). -/
def formatToolResponse (data : Payload) (isError : Bool) : ToolResult :=
  ⟨[⟨"text", "application/json", data⟩], isError⟩

/-- The `list_records` tool handler of the wired `AITableMCPServer`
(src/src/mcpServer.ts lines 142-164): it awaits the adapter and wraps the
records; there is no try/catch, so an adapter error propagates as a rejected
promise (embedded as `Except.error`). -/
def AITableMCPServer.listRecordsTool (svc : Except String (List Rec)) :
    Except String ToolResult :=
  match svc with
  | .ok rs => .ok ⟨[⟨"text", "application/json", .jsonRecords rs⟩], false⟩
  | .error e => .error e

/-- The schema-merging step of the `get_base_schema` tool
(src/src/mcpServer.ts lines 88-114): attach a `path` to each table matched by
id against the discovered datasheets, then append a placeholder table (empty
`fields`, empty `views`, `primaryFieldId = ''`) for every discovered
datasheet that was not already among the schema's tables. -/
def AITableMCPServer.enhanceSchemaTables (tables : List Table) (allDs : List DatasheetInfo) :
    List TableP :=
  let mapped := tables.map (fun t =>
    match allDs.find? (fun ds => ds.id == t.id) with
    | some ds => ⟨t.id, t.name, t.primaryFieldId, t.fields, t.views, t.description, some ds.path⟩
    | none => ⟨t.id, t.name, t.primaryFieldId, t.fields, t.views, t.description, none⟩)
  let existingTableIds := tables.map (fun t => t.id)
  let additionalDatasheets := (allDs.filter (fun ds => !existingTableIds.contains ds.id)).map
    (fun ds => (⟨ds.id, ds.name, "", [], [], "", some ds.path⟩ : TableP))
  mapped ++ additionalDatasheets

/-- The `get_base_schema` tool handler (src/src/mcpServer.ts lines 73-139):
the whole body is wrapped in try/catch, so any error becomes an
`isError: true` envelope holding `{ error: message }`; a failure of the inner
`getAllDatasheets` call is swallowed and the unenhanced schema returned. -/
def AITableMCPServer.getBaseSchemaTool (schemaRes : Except String (List Table))
    (allDsRes : Except String (List DatasheetInfo)) : ToolResult :=
  match schemaRes with
  | .error e => ⟨[⟨"text", "application/json", .jsonErrorObj e⟩], true⟩
  | .ok tables =>
    match allDsRes with
    | .error _ =>
      ⟨[⟨"text", "application/json",
        .jsonSchema (tables.map (fun t =>
          ⟨t.id, t.name, t.primaryFieldId, t.fields, t.views, t.description, none⟩))⟩], false⟩
    | .ok ds =>
      ⟨[⟨"text", "application/json",
        .jsonSchema (AITableMCPServer.enhanceSchemaTables tables ds)⟩], false⟩

/-- The `list_all_datasheets` tool handler (src/src/mcpServer.ts lines
352-380): body wrapped in try/catch, errors become `isError: true`
envelopes. -/
def AITableMCPServer.listAllDatasheetsTool (res : Except String (List DatasheetInfo)) :
    ToolResult :=
  match res with
  | .ok ds => ⟨[⟨"text", "application/json", .jsonDatasheets ds⟩], false⟩
  | .error e => ⟨[⟨"text", "application/json", .jsonErrorObj e⟩], true⟩

/-- A `tools/call` request to the legacy `AirtableMCPServer`
(src/unnamed/part_003 lines 204-340), one constructor per supported tool,
carrying the outcome of the adapter call that case would make (argument-parse
failures are folded into the error outcome, since the single catch treats
them alike).  `unknownTool` is a request whose name matches no case. -/
inductive CallToolRequest where
  | listRecordsReq (svc : Except String (List Rec))
  | searchRecordsReq (svc : Except String (List Rec))
  | listBasesReq (svc : Except String (List Base))
  | listTablesReq (svc : Except String (List Table))
  | getRecordReq (svc : Except String Rec)
  | createRecordReq (svc : Except String Rec)
  | updateRecordsReq (svc : Except String (List Rec))
  | deleteRecordsReq (svc : Except String (List String))
  | createTableReq (svc : Except String Table)
  | updateTableReq (svc : Except String Table)
  | createFieldReq (svc : Except String Field)
  | updateFieldReq (svc : Except String Field)
  | unknownTool (name : String)
deriving Repr

/-- The `request.params.name` of a legacy tool request. -/
def CallToolRequest.toolName : CallToolRequest → String
  | .listRecordsReq _ => "list_records"
  | .searchRecordsReq _ => "search_records"
  | .listBasesReq _ => "list_bases"
  | .listTablesReq _ => "list_tables"
  | .getRecordReq _ => "get_record"
  | .createRecordReq _ => "create_record"
  | .updateRecordsReq _ => "update_records"
  | .deleteRecordsReq _ => "delete_records"
  | .createTableReq _ => "create_table"
  | .updateTableReq _ => "update_table"
  | .createFieldReq _ => "create_field"
  | .updateFieldReq _ => "update_field"
  | .unknownTool n => n

/-- The error carried by a legacy tool request's adapter outcome, when there
is one (`unknownTool` raises its own error inside the switch instead). -/
def CallToolRequest.svcError : CallToolRequest → Option String
  | .listRecordsReq (.error e) => some e
  | .searchRecordsReq (.error e) => some e
  | .listBasesReq (.error e) => some e
  | .listTablesReq (.error e) => some e
  | .getRecordReq (.error e) => some e
  | .createRecordReq (.error e) => some e
  | .updateRecordsReq (.error e) => some e
  | .deleteRecordsReq (.error e) => some e
  | .createTableReq (.error e) => some e
  | .updateTableReq (.error e) => some e
  | .createFieldReq (.error e) => some e
  | .updateFieldReq (.error e) => some e
  | _ => none

/-- The wrapped error message produced by the legacy catch block
(src/unnamed/part_003 lines 334-339). -/
def AirtableMCPServer.errorText (toolName msg : String) : Payload :=
  .jsonErrorString ("Error in tool " ++ toolName ++ ": " ++ msg)

/-- `AirtableMCPServer.handleCallTool` (src/unnamed/part_003 lines 204-340):
every case formats its adapter result via `formatToolResponse`; the single
catch around the whole switch converts any thrown error (including the
unknown-tool error) into `formatToolResponse('Error in tool ...', true)` —
the handler itself never rejects, which the embedding reflects by returning
`ToolResult` rather than `Except`. -/
def AirtableMCPServer.handleCallTool (req : CallToolRequest) : ToolResult :=
  match req with
  | .listRecordsReq (.ok rs) => formatToolResponse (.jsonRecords rs) false
  | .searchRecordsReq (.ok rs) => formatToolResponse (.jsonRecords rs) false
  | .listBasesReq (.ok bs) => formatToolResponse (.jsonBases bs) false
  | .listTablesReq (.ok ts) => formatToolResponse (.jsonTables ts) false
  | .getRecordReq (.ok r) => formatToolResponse (.jsonRecord r) false
  | .createRecordReq (.ok r) => formatToolResponse (.jsonRecord r) false
  | .updateRecordsReq (.ok rs) => formatToolResponse (.jsonRecords rs) false
  | .deleteRecordsReq (.ok ids) => formatToolResponse (.jsonIds ids) false
  | .createTableReq (.ok t) => formatToolResponse (.jsonTable t) false
  | .updateTableReq (.ok t) => formatToolResponse (.jsonTable t) false
  | .createFieldReq (.ok f) => formatToolResponse (.jsonField f) false
  | .updateFieldReq (.ok f) => formatToolResponse (.jsonField f) false
  | .unknownTool n =>
    formatToolResponse (AirtableMCPServer.errorText n ("Unknown tool: " ++ n)) true
  | r => formatToolResponse (AirtableMCPServer.errorText r.toolName ((r.svcError).getD "")) true

/-- The `primaryFieldId` invariant from the spec: the table's primary field id
is the id of a field present in its `fields` array. -/
def Table.hasValidPrimary (t : Table) : Bool :=
  t.fields.any (fun f => f.id == some t.primaryFieldId)

/-- The same invariant for path-augmented tables in the merged
`get_base_schema` output. -/
def TableP.hasValidPrimary (t : TableP) : Bool :=
  t.fields.any (fun f => f.id == some t.primaryFieldId)


/-- The data of one node as the node-detail endpoint reports it
(`{ id, name, type }`; `children` is carried by the tree structure). -/
structure NodeData where
  id : String
  name : String
  type : String
deriving DecidableEq, Repr

/-- A mocked node tree for the recursive datasheet discovery: each node
carries the outcome of its own detail fetch (`fetchOk = false` models a
thrown fetch or a `success: false` body) and its children as reported by
that fetch.  The mock is assumed consistent: the name/type a parent's
listing reports for a node agree with the node's own detail fetch, as they
do on a real server. -/
inductive NTree where
  | mk (fetchOk : Bool) (data : NodeData) (children : List NTree)
deriving Repr

/-- Detail-fetch success flag of a node. -/
def NTree.fetchOkOf : NTree → Bool
  | .mk ok _ _ => ok

/-- Node data of a tree node. -/
def NTree.dataOf : NTree → NodeData
  | .mk _ d _ => d

/-- Children of a tree node. -/
def NTree.childrenOf : NTree → List NTree
  | .mk _ _ cs => cs

mutual

/-- `AITableService.processNode` (src/src/aitableService.ts lines 836-890):
fetch the node's details (a failure is caught, logged and contributes
nothing); build `currentPath` (`nodePath + ' > ' + name`, or just `name`
when the accumulated path is the empty string); emit a `Datasheet` node with
that path; recurse into a `Folder` node's nonempty children list. -/
def AITableService.processNode (spaceId nodePath : String) : NTree → List DatasheetInfo
  | .mk ok d cs =>
    if ok then
      let currentPath := if nodePath = "" then d.name else nodePath ++ " > " ++ d.name
      if d.type = "Datasheet" then [⟨d.id, d.name, currentPath, spaceId⟩]
      else if d.type = "Folder" ∧ cs.isEmpty = false then
        AITableService.processChildren spaceId currentPath cs
      else []
    else []

/-- Sequential visit of a node list (the `for` loops over folders and
children in `getAllDatasheets`/`processNode`), concatenating the
datasheets each visit pushes. -/
def AITableService.processChildren (spaceId nodePath : String) : List NTree → List DatasheetInfo
  | [] => []
  | t :: ts =>
    AITableService.processNode spaceId nodePath t ++
      AITableService.processChildren spaceId nodePath ts

end

/-- `AITableService.getAllDatasheets` (src/src/aitableService.ts lines
751-799): list the top-level nodes (a failed listing is caught and yields
`[]`); emit every root `Datasheet` directly with `path = name`; then process
every root `Folder` with an empty accumulated path. -/
def AITableService.getAllDatasheets (spaceId : String) (top : Except String (List NTree)) :
    List DatasheetInfo :=
  match top with
  | .error _ => []
  | .ok nodes =>
    let rootDatasheets := (nodes.filter (fun t => t.dataOf.type == "Datasheet")).map
      (fun t => (⟨t.dataOf.id, t.dataOf.name, t.dataOf.name, spaceId⟩ : DatasheetInfo))
    let folders := nodes.filter (fun t => t.dataOf.type == "Folder")
    rootDatasheets ++ AITableService.processChildren spaceId "" folders

/-- Modelled from the claim's words: the names of the ancestor folders from
the root, joined by `' > '` and ending with the node's own name. -/
def joinPath : List String → String → String
  | [], name => name
  | a :: rest, name => a ++ " > " ++ joinPath rest name

mutual

/-- Modelled from the claim's words, for comparison with
`AITableService.processNode`: one `DatasheetInfo` per reachable datasheet
node, whose path is `joinPath` of its ancestor folder names. -/
def specDatasheets (spaceId : String) (ancestors : List String) : NTree → List DatasheetInfo
  | .mk _ d cs =>
    if d.type = "Datasheet" then [⟨d.id, d.name, joinPath ancestors d.name, spaceId⟩]
    else if d.type = "Folder" then specForest spaceId (ancestors ++ [d.name]) cs
    else []

/-- `specDatasheets` over a forest, in order. -/
def specForest (spaceId : String) (ancestors : List String) : List NTree → List DatasheetInfo
  | [] => []
  | t :: ts => specDatasheets spaceId ancestors t ++ specForest spaceId ancestors ts

end

mutual

/-- Every detail fetch in the tree succeeds. -/
def NTree.allOk : NTree → Bool
  | .mk ok _ cs => ok && NTree.allOkForest cs

/-- `NTree.allOk` over a forest. -/
def NTree.allOkForest : List NTree → Bool
  | [] => true
  | t :: ts => NTree.allOk t && NTree.allOkForest ts

end

mutual

/-- Every folder in the tree has a nonempty name. -/
def NTree.foldersNamed : NTree → Bool
  | .mk _ d cs => (d.type != "Folder" || d.name != "") && NTree.foldersNamedForest cs

/-- `NTree.foldersNamed` over a forest. -/
def NTree.foldersNamedForest : List NTree → Bool
  | [] => true
  | t :: ts => NTree.foldersNamed t && NTree.foldersNamedForest ts

end

/-- The accumulated `nodePath` string corresponding to a list of ancestor
folder names: empty for the root, otherwise the names joined by `' > '`. -/
def ancPath : List String → String
  | [] => ""
  | [a] => a
  | a :: b :: rest => a ++ " > " ++ ancPath (b :: rest)

/-- The spec's example tree: `Root Folder > Sub Folder > Invoices (datasheet)`. -/
def exampleSpecTree : NTree :=
  .mk true ⟨"f1", "Root Folder", "Folder"⟩
    [.mk true ⟨"f2", "Sub Folder", "Folder"⟩
      [.mk true ⟨"ds1", "Invoices", "Datasheet"⟩ []]]

/-- A root folder whose name is the empty string, holding one datasheet. -/
def exampleEmptyNameTree : NTree :=
  .mk true ⟨"f0", "", "Folder"⟩
    [.mk true ⟨"ds1", "Invoices", "Datasheet"⟩ []]

/-- A folder subtree whose own detail fetch fails, with a datasheet below it. -/
def exampleBrokenTree : NTree :=
  .mk false ⟨"fBroken", "Broken Folder", "Folder"⟩
    [.mk true ⟨"dsHidden", "Hidden", "Datasheet"⟩ []]

/-- A legacy field `{ id, name, type }` (the legacy types give fields a
required id; only the parts `validateAndGetSearchFields` reads are kept). -/
structure FieldL where
  id : String
  name : String
  type : String
deriving DecidableEq, Repr

/-- A legacy table `{ id, name, fields }`. -/
structure TableL where
  id : String
  name : String
  fields : List FieldL
deriving DecidableEq, Repr

/-- The text-typed field allow-list of `AirtableService.validateAndGetSearchFields`
(src/unnamed/part_006 lines 208-215). -/
def searchableFieldTypes : List String :=
  ["singleLineText", "multilineText", "richText", "email", "url", "phoneNumber"]

/-- `AirtableService.validateAndGetSearchFields` (src/unnamed/part_006 lines
197-237): find the table in the (already fetched) schema; collect the ids of
its text-typed fields; fail when there are none; when specific field ids were
requested, fail with `Invalid fields requested: ...` naming every requested id
that is not among the searchable ids, else return the requested ids; with no
request, return all searchable ids. -/
def AirtableService.validateAndGetSearchFields (baseId tableId : String)
    (tables : List TableL) (requestedFieldIds : Option (List String)) :
    Except String (List String) :=
  match tables.find? (fun t => t.id == tableId) with
  | none => .error ("Table " ++ tableId ++ " not found in base " ++ baseId)
  | some table =>
    let searchableFields :=
      (table.fields.filter (fun f => searchableFieldTypes.contains f.type)).map (fun f => f.id)
    if searchableFields.isEmpty then
      .error "No text fields available to search"
    else
      match requestedFieldIds with
      | some req =>
        if req.isEmpty then .ok searchableFields
        else
          let invalidFields := req.filter (fun fid => !searchableFields.contains fid)
          if invalidFields.isEmpty then .ok req
          else .error ("Invalid fields requested: " ++ String.intercalate ", " invalidFields)
      | none => .ok searchableFields

/-- Mock server for the legacy `AirtableService.searchRecords`: the
`getBaseSchema` outcome and the `listRecords` outcome as a function of the
filter formula passed down. -/
structure SearchLegacySrv where
  schema : Except String (List TableL)
  listRecordsWith : String → Except String (List Rec)

/-- `AirtableService.searchRecords` (src/unnamed/part_006 lines 239-260):
validate the field ids (which fetches the schema), escape the term, build the
`OR(FIND(...))` formula and delegate to `listRecords`.  The Boolean records
whether the search (listRecords) request was issued. -/
def AirtableService.searchRecords (baseId tableId term : String)
    (fieldIds : Option (List String)) (srv : SearchLegacySrv) :
    Except String (List Rec) × Bool :=
  match srv.schema with
  | .error e => (.error e, false)
  | .ok tables =>
    match AirtableService.validateAndGetSearchFields baseId tableId tables fieldIds with
    | .error e => (.error e, false)
    | .ok searchFields =>
      (srv.listRecordsWith (AirtableService.buildFilterFormula term searchFields), true)

/-- String-level wrapper of `escapeQuotes`: the quote-only escaping of the
`searchRecords` copy in src/unnamed/part_008 (line 367). -/
def AITableServiceV8.escapeTerm (s : String) : String :=
  ⟨escapeQuotes s.data⟩

/-- One `FIND` condition as built in src/unnamed/part_008 line 367. -/
def AITableServiceV8.searchCondition (term fid : String) : String :=
  "FIND(\"" ++ AITableServiceV8.escapeTerm term ++ "\", \x7b" ++ fid ++ "\x7d)"


/-- A concrete field used by the concrete mock servers. -/
def cField1 : Field := ⟨some "fld1", "Name", "singleLineText", none, none⟩

/-- A concrete table used by the concrete mock servers. -/
def cTable1 : Table :=
  ⟨"tbl1", "Test Table", "fld1", [cField1], [⟨"viw1", "Grid", "grid"⟩], "desc"⟩

/-- Concrete `listBases` server whose primary attempt succeeds. -/
def cListBasesSrv : ListBasesSrv :=
  ⟨.ok ([⟨"base1", "Test Base", "create"⟩], none), .error "secondary must not be called"⟩

/-- Concrete `getBaseSchema` server whose primary attempt succeeds. -/
def cGetBaseSchemaSrv : GetBaseSchemaSrv :=
  ⟨.ok [cTable1], .error "secondary must not be called",
    fun _ => .error "secondary must not be called",
    fun _ => .error "secondary must not be called"⟩

/-- Concrete `listRecords` server whose primary attempt succeeds. -/
def cListRecordsSrv : ListRecordsSrv :=
  ⟨.ok ⟨[⟨"rec1", [("name", "Test Record")]⟩], none⟩, .error "secondary must not be called"⟩

/-- Concrete `getRecord` server whose primary attempt succeeds. -/
def cGetRecordSrv : GetRecordSrv :=
  ⟨.ok ⟨"rec1", [("name", "Test Record")]⟩, cListRecordsSrv⟩

/-- Concrete field-mutation server whose primary attempt succeeds. -/
def cFieldOpSrv : FieldOpSrv := ⟨.ok cField1, .error "secondary must not be called"⟩

/-- Concrete `searchRecords` server (wired service) whose primary attempt succeeds. -/
def cSearchSrvWired : SearchSrv :=
  ⟨.ok [⟨"rec1", [("name", "Test Record")]⟩], .error "secondary must not be called"⟩

/-- Concrete `createTable` server: the creation returns `tbl1` and the re-fetched
schema contains that table. -/
def cCreateTableSrv : CreateTableSrv := ⟨.ok "tbl1", .ok [cTable1]⟩

/-- Concrete `updateTable` server for table `tbl1`. -/
def cUpdateTableSrv : UpdateTableSrv := ⟨.ok true, .ok [cTable1]⟩

/-- Concrete discovered datasheet not present among the schema's tables. -/
def cInvoicesDs : DatasheetInfo := ⟨"ds1", "Invoices", "Root Folder > Invoices", "sp1"⟩

/-- Concrete legacy table with no text-typed field. -/
def cTableNoText : TableL := ⟨"tbl1", "T", [⟨"fldNum", "Amount", "number"⟩]⟩

/-- Concrete legacy table with one text-typed field. -/
def cTableWithText : TableL := ⟨"tbl1", "T", [⟨"fldTxt", "Name", "singleLineText"⟩]⟩

/-- Concrete legacy search server over `cTableWithText`. -/
def cLegacySearchSrv : SearchLegacySrv := ⟨.ok [cTableWithText], fun _ => .ok []⟩

/-- Claim C1, counterexample: against the three-page mock server, the wired
`AITableService.listRecords` primary branch issues exactly one request and
returns only the first page's records — not the three-page concatenation in
three requests that the claim asserts. -/
theorem C1_counterexample :
    AITableService.listRecordsPrimaryAttempt threePages =
      some ([⟨"rec1", [("name", "A")]⟩], 1) ∧
    AITableService.listRecordsPrimaryAttempt threePages ≠ some (threePagesAllRecords, 3) := by
  exact ⟨rfl, by decide⟩

/-- Claim C1, amended: it is the legacy `AirtableService.listRecords`
(src/unnamed/part_006, also copied in part_012) that loops over the opaque
offset token: for every well-formed page chain it returns the in-order
concatenation of all pages' records and issues exactly one request per page;
the wired `AITableService.listRecords` instead issues a single primary-dialect
request and returns only the first page. -/
theorem C1_listRecords_paginates (pages : List AirtablePage)
    (hchain : offsetChain pages = true) (hne : pages ≠ []) :
    AirtableService.listRecords pages = ((pages.map AirtablePage.records).flatten, pages.length) := by
  induction pages with
  | nil => exact absurd rfl hne
  | cons p rest ih =>
    cases rest with
    | nil =>
      have hnone : p.offset = none := by
        simpa [offsetChain, Option.isNone_iff_eq_none] using hchain
      simp [AirtableService.listRecords, hnone]
    | cons q rest' =>
      have h1 : p.offset.isSome = true := by
        simp [offsetChain] at hchain
        exact hchain.1
      have h2 : offsetChain (q :: rest') = true := by
        simp [offsetChain] at hchain
        exact hchain.2
      obtain ⟨o, ho⟩ := Option.isSome_iff_exists.mp h1
      have hrec := ih h2 (by simp)
      have hstep : AirtableService.listRecords (p :: q :: rest') =
          (p.records ++ (AirtableService.listRecords (q :: rest')).1,
            (AirtableService.listRecords (q :: rest')).2 + 1) := by
        simp only [AirtableService.listRecords, ho]
      rw [hstep, hrec]
      simp

/-- Witness for C1's amended theorem at the three-page server. -/
theorem C1_listRecords_paginates_witness :
    offsetChain threePages = true ∧ threePages ≠ [] ∧
    AirtableService.listRecords threePages = (threePagesAllRecords, 3) := by
  refine ⟨by decide, by decide, ?_⟩
  rw [C1_listRecords_paginates threePages (by decide) (by decide)]
  rfl


/-- Claim C2: for every dual-dialect operation of the wired service
(`listBases`, `getBaseSchema`, `listRecords`, `getRecord`, `createField`,
`updateField`, `searchRecords`), when the primary attempt returns a 2xx
schema-valid body (an `.ok` fetch outcome) the call trace is exactly the one
primary-dialect request — the secondary dialect is never consulted; and in
every case the first request issued is the primary-dialect attempt, so the
fallback can only ever run after the primary attempt has failed. -/
theorem C2_primary_success_no_fallback :
    (∀ (srv : ListBasesSrv) r, srv.primary = .ok r →
      (AITableService.listBases srv).2 = [DialectCall.primary]) ∧
    (∀ (srv : GetBaseSchemaSrv) r, srv.primary = .ok r →
      (AITableService.getBaseSchema srv).2 = [DialectCall.primary]) ∧
    (∀ (srv : ListRecordsSrv) r, srv.primary = .ok r →
      (AITableService.listRecords srv).2 = [DialectCall.primary]) ∧
    (∀ (srv : GetRecordSrv) (r : Rec) (recordId : String), srv.primary = .ok r →
      (AITableService.getRecord srv recordId).2 = [DialectCall.primary]) ∧
    (∀ (srv : FieldOpSrv) f, srv.primary = .ok f →
      (AITableService.createField srv).calls = [DialectCall.primary]) ∧
    (∀ (srv : FieldOpSrv) f, srv.primary = .ok f →
      (AITableService.updateField srv).calls = [DialectCall.primary]) ∧
    (∀ (srv : SearchSrv) rs (fieldIds : List String), srv.primary = .ok rs →
      (AITableService.searchRecords fieldIds srv).2 = [DialectCall.primary]) ∧
    (∀ (srv : ListBasesSrv),
      ((AITableService.listBases srv).2).head? = some DialectCall.primary) ∧
    (∀ (srv : GetBaseSchemaSrv),
      ((AITableService.getBaseSchema srv).2).head? = some DialectCall.primary) ∧
    (∀ (srv : ListRecordsSrv),
      ((AITableService.listRecords srv).2).head? = some DialectCall.primary) ∧
    (∀ (srv : GetRecordSrv) (recordId : String),
      ((AITableService.getRecord srv recordId).2).head? = some DialectCall.primary) ∧
    (∀ (srv : FieldOpSrv),
      ((AITableService.createField srv).calls).head? = some DialectCall.primary ∧
      ((AITableService.updateField srv).calls).head? = some DialectCall.primary) ∧
    (∀ (srv : SearchSrv) (fieldIds : List String),
      ((AITableService.searchRecords fieldIds srv).2).head? = some DialectCall.primary) := by
  refine ⟨?_, ?_, ?_, ?_, ?_, ?_, ?_, ?_, ?_, ?_, ?_, ?_, ?_⟩
  · intro srv r h; simp [AITableService.listBases, h]
  · intro srv r h; simp [AITableService.getBaseSchema, h]
  · intro srv r h; simp [AITableService.listRecords, h]
  · intro srv r recordId h; simp [AITableService.getRecord, h]
  · intro srv f h; simp [AITableService.createField, h]
  · intro srv f h; simp [AITableService.updateField, h]
  · intro srv rs fieldIds h; simp [AITableService.searchRecords, h]
  · intro srv
    cases hp : srv.primary <;> simp [AITableService.listBases, hp] <;>
      cases hs : srv.secondary <;> simp [hs]
  · intro srv
    cases hp : srv.primary <;> simp [AITableService.getBaseSchema, hp] <;>
      cases hs : srv.nodes <;> simp [hs]
  · intro srv
    cases hp : srv.primary <;> simp [AITableService.listRecords, hp] <;>
      cases hs : srv.secondary <;> simp [hs]
  · intro srv recordId
    cases hp : srv.primary <;> simp [AITableService.getRecord, hp]
    cases hs : (AITableService.listRecords srv.fallback).1 <;> simp [hs]
    rename_i recs
    cases recs with
    | nil => simp
    | cons r rest => cases rest <;> simp
  · intro srv
    constructor <;>
      (cases hp : srv.primary <;> simp [AITableService.createField, AITableService.updateField, hp] <;>
        cases hs : srv.secondary <;> simp [hs])
  · intro srv fieldIds
    cases hp : srv.primary <;> simp [AITableService.searchRecords, hp] <;>
      cases hs : srv.secondary <;> simp [hs]

/-- Witness for C2 at concrete mock servers whose primary attempts succeed. -/
theorem C2_primary_success_no_fallback_witness :
    (AITableService.listBases cListBasesSrv).2 = [DialectCall.primary] ∧
    (AITableService.getBaseSchema cGetBaseSchemaSrv).2 = [DialectCall.primary] ∧
    (AITableService.listRecords cListRecordsSrv).2 = [DialectCall.primary] ∧
    (AITableService.getRecord cGetRecordSrv "rec1").2 = [DialectCall.primary] ∧
    (AITableService.createField cFieldOpSrv).calls = [DialectCall.primary] ∧
    (AITableService.updateField cFieldOpSrv).calls = [DialectCall.primary] ∧
    (AITableService.searchRecords ["fld1"] cSearchSrvWired).2 = [DialectCall.primary] :=
  ⟨C2_primary_success_no_fallback.1 cListBasesSrv _ rfl,
   C2_primary_success_no_fallback.2.1 cGetBaseSchemaSrv _ rfl,
   C2_primary_success_no_fallback.2.2.1 cListRecordsSrv _ rfl,
   C2_primary_success_no_fallback.2.2.2.1 cGetRecordSrv _ "rec1" rfl,
   C2_primary_success_no_fallback.2.2.2.2.1 cFieldOpSrv _ rfl,
   C2_primary_success_no_fallback.2.2.2.2.2.1 cFieldOpSrv _ rfl,
   C2_primary_success_no_fallback.2.2.2.2.2.2.1 cSearchSrvWired _ ["fld1"] rfl⟩


/-- Claim C3, counterexample: the wired `list_records` tool handler
(src/src/mcpServer.ts lines 142-164) has no try/catch, so an adapter error
crosses the facade boundary as a rejected promise instead of being converted
into an `isError: true` envelope. -/
theorem C3_counterexample :
    AITableMCPServer.listRecordsTool (.error "aitable-mcp-server: API request failed") =
      Except.error "aitable-mcp-server: API request failed" := rfl

/-- Claim C3, amended: only the `get_base_schema` and `list_all_datasheets`
handlers of the wired `AITableMCPServer` catch adapter errors and return the
`{ content: [...], isError: true }` envelope (with `{ error: message }` as
text); the other wired tool handlers (e.g. `list_records`) let the error
propagate.  The legacy `AirtableMCPServer.handleCallTool`
(src/unnamed/part_003) does wrap every tool: each supported tool's adapter
error and the unknown-tool error become
`formatToolResponse('Error in tool <name>: <message>', true)`, and the
handler never rejects. -/
theorem C3_error_envelope :
    (∀ e, AITableMCPServer.listRecordsTool (.error e) = Except.error e) ∧
    (∀ e dsRes, AITableMCPServer.getBaseSchemaTool (.error e) dsRes =
      ⟨[⟨"text", "application/json", .jsonErrorObj e⟩], true⟩) ∧
    (∀ e, AITableMCPServer.listAllDatasheetsTool (.error e) =
      ⟨[⟨"text", "application/json", .jsonErrorObj e⟩], true⟩) ∧
    (∀ (req : CallToolRequest) e, req.svcError = some e →
      AirtableMCPServer.handleCallTool req =
        formatToolResponse (AirtableMCPServer.errorText req.toolName e) true) ∧
    (∀ n, AirtableMCPServer.handleCallTool (.unknownTool n) =
      formatToolResponse (AirtableMCPServer.errorText n ("Unknown tool: " ++ n)) true) ∧
    (∀ (req : CallToolRequest), (AirtableMCPServer.handleCallTool req).content.length = 1) := by
  refine ⟨fun e => rfl, fun e dsRes => rfl, fun e => rfl, ?_, fun n => rfl, ?_⟩
  · intro req e h
    cases req <;> rename_i svc <;>
      first
      | (cases svc with
          | ok v => simp [CallToolRequest.svcError] at h
          | error e' =>
            simp [CallToolRequest.svcError] at h
            subst h
            rfl)
      | simp [CallToolRequest.svcError] at h
  · intro req
    cases req <;> rename_i svc <;>
      first
      | (cases svc <;> rfl)
      | rfl

/-- Witness for C3's amended theorem at concrete errors. -/
theorem C3_error_envelope_witness :
    CallToolRequest.svcError (.listRecordsReq (.error "boom")) = some "boom" ∧
    AirtableMCPServer.handleCallTool (.listRecordsReq (.error "boom")) =
      formatToolResponse (AirtableMCPServer.errorText "list_records" "boom") true ∧
    AITableMCPServer.getBaseSchemaTool (.error "boom") (.ok []) =
      ⟨[⟨"text", "application/json", .jsonErrorObj "boom"⟩], true⟩ :=
  ⟨rfl, C3_error_envelope.2.2.2.1 (.listRecordsReq (.error "boom")) "boom" rfl,
   C3_error_envelope.2.1 "boom" (.ok [])⟩


/-- Claim C4, counterexample: `AITableService.createField` with a successful
mutating call returns the mutation response body directly and never issues
the schema re-fetch the claim asserts. -/
theorem C4_counterexample :
    cFieldOpSrv.primary = Except.ok cField1 ∧
    (AITableService.createField cFieldOpSrv).refetchedSchema = false ∧
    (AITableService.createField cFieldOpSrv).result = Except.ok cField1 :=
  ⟨rfl, rfl, rfl⟩

/-- Claim C4, amended: only `createTable` and `updateTable` follow the
mutate-then-re-fetch protocol — after a successful mutating call they re-fetch
the full schema, return the entity located by id in the re-fetched schema,
and fail with the internal not-found error when it is absent; `createField`
and `updateField` never re-fetch and, when the primary mutation succeeds,
return its response body. -/
theorem C4_mutation_refetch :
    (∀ (srv : CreateTableSrv) dsId, srv.create = .ok dsId →
      (AITableService.createTable srv).2 = true ∧
      (∀ tables t, srv.schema = .ok tables → (AITableService.createTable srv).1 = .ok t →
        t ∈ tables ∧ t.id = dsId) ∧
      (∀ tables, srv.schema = .ok tables → tables.find? (fun t => t.id == dsId) = none →
        (AITableService.createTable srv).1 =
          .error "aitable-mcp-server: Created datasheet not found in schema")) ∧
    (∀ (srv : UpdateTableSrv) tableId, srv.update = .ok true →
      (AITableService.updateTable tableId srv).2 = true ∧
      (∀ tables t, srv.schema = .ok tables → (AITableService.updateTable tableId srv).1 = .ok t →
        t ∈ tables ∧ t.id = tableId) ∧
      (∀ tables, srv.schema = .ok tables → tables.find? (fun t => t.id == tableId) = none →
        (AITableService.updateTable tableId srv).1 =
          .error "aitable-mcp-server: Updated datasheet not found in schema")) ∧
    (∀ (srv : FieldOpSrv),
      (AITableService.createField srv).refetchedSchema = false ∧
      (AITableService.updateField srv).refetchedSchema = false ∧
      (∀ f, srv.primary = .ok f →
        (AITableService.createField srv).result = .ok f ∧
        (AITableService.updateField srv).result = .ok f)) := by
  refine ⟨?_, ?_, ?_⟩
  · intro srv dsId hc
    refine ⟨?_, ?_, ?_⟩
    · simp [AITableService.createTable, hc]
      cases hs : srv.schema with
      | error e => simp
      | ok tables =>
        simp
        cases hf : tables.find? (fun t => t.id == dsId) <;> simp
    · intro tables t hs hres
      simp [AITableService.createTable, hc, hs] at hres
      cases hf : tables.find? (fun t => t.id == dsId) with
      | none => simp [hf] at hres
      | some t' =>
        simp [hf] at hres
        subst hres
        have hmem := List.mem_of_find?_eq_some hf
        have hid := List.find?_some hf
        exact ⟨hmem, by simpa using hid⟩
    · intro tables hs hf
      simp [AITableService.createTable, hc, hs, hf]
  · intro srv tableId hu
    refine ⟨?_, ?_, ?_⟩
    · simp [AITableService.updateTable, hu]
      cases hs : srv.schema with
      | error e => simp
      | ok tables =>
        simp
        cases hf : tables.find? (fun t => t.id == tableId) <;> simp
    · intro tables t hs hres
      simp [AITableService.updateTable, hu, hs] at hres
      cases hf : tables.find? (fun t => t.id == tableId) with
      | none => simp [hf] at hres
      | some t' =>
        simp [hf] at hres
        subst hres
        have hmem := List.mem_of_find?_eq_some hf
        have hid := List.find?_some hf
        exact ⟨hmem, by simpa using hid⟩
    · intro tables hs hf
      simp [AITableService.updateTable, hu, hs, hf]
  · intro srv
    refine ⟨?_, ?_, ?_⟩
    · cases hp : srv.primary <;> [skip; simp [AITableService.createField, hp]] <;>
        cases hs : srv.secondary <;> simp [AITableService.createField, hp, hs]
    · cases hp : srv.primary <;> [skip; simp [AITableService.updateField, hp]] <;>
        cases hs : srv.secondary <;> simp [AITableService.updateField, hp, hs]
    · intro f hp
      exact ⟨by simp [AITableService.createField, hp], by simp [AITableService.updateField, hp]⟩

/-- Witness for C4's amended theorem at concrete servers. -/
theorem C4_mutation_refetch_witness :
    cCreateTableSrv.create = Except.ok "tbl1" ∧
    (AITableService.createTable cCreateTableSrv).2 = true ∧
    cUpdateTableSrv.update = Except.ok true ∧
    (AITableService.updateTable "tbl1" cUpdateTableSrv).2 = true ∧
    (AITableService.createField cFieldOpSrv).refetchedSchema = false :=
  ⟨rfl, (C4_mutation_refetch.1 cCreateTableSrv "tbl1" rfl).1,
   rfl, (C4_mutation_refetch.2.1 cUpdateTableSrv "tbl1" rfl).1,
   (C4_mutation_refetch.2.2 cFieldOpSrv).1⟩


/-- Claim C5, counterexample: the `get_base_schema` tool appends a placeholder
for every discovered datasheet missing from the schema, with
`primaryFieldId = ''` and `fields = []`, so the merged table list violates
the invariant that `primaryFieldId` names a field present in `fields`. -/
theorem C5_counterexample :
    AITableMCPServer.enhanceSchemaTables [] [cInvoicesDs] =
      [⟨"ds1", "Invoices", "", [], [], "", some "Root Folder > Invoices"⟩] ∧
    (AITableMCPServer.enhanceSchemaTables [] [cInvoicesDs]).all TableP.hasValidPrimary = false :=
  ⟨rfl, rfl⟩

/-- Claim C5, amended: tables assembled by the `getBaseSchema` fallback branch
satisfy the invariant whenever the upstream reports a nonempty field list —
the primary field is the one flagged `isPrimary`, else the first field — but
a table whose field list is empty gets `primaryFieldId = ''` referencing
nothing, and the placeholder tables the `get_base_schema` tool appends for
datasheets outside the schema likewise carry `primaryFieldId = ''` with no
fields.  (Primary-dialect tables are passed through as validated, with no
cross-check of `primaryFieldId` against `fields`.) -/
theorem C5_fallback_primary_field (n : NodeSummary) (fs : List ApiField) (vs : List View)
    (hne : fs ≠ []) :
    Table.hasValidPrimary (AITableService.buildFallbackTable n fs vs) = true ∧
    ((∀ f ∈ fs, f.isPrimary ≠ some true) →
      ∃ f0 rest, fs = f0 :: rest ∧
        (AITableService.buildFallbackTable n fs vs).primaryFieldId = f0.id) := by
  constructor
  · cases hf : fs.find? (fun f => f.isPrimary == some true) with
    | some f =>
      have hmem := List.mem_of_find?_eq_some hf
      simp [Table.hasValidPrimary, AITableService.buildFallbackTable, hf]
      exact ⟨f, hmem, rfl⟩
    | none =>
      cases fs with
      | nil => exact absurd rfl hne
      | cons f0 rest =>
        simp [Table.hasValidPrimary, AITableService.buildFallbackTable, hf]
  · intro hnone
    cases fs with
    | nil => exact absurd rfl hne
    | cons f0 rest =>
      refine ⟨f0, rest, rfl, ?_⟩
      have hf : (f0 :: rest).find? (fun f => f.isPrimary == some true) = none := by
        rw [List.find?_eq_none]
        intro f hmem
        simpa using hnone f hmem
      simp [AITableService.buildFallbackTable, hf]

/-- Witness for C5's amended theorem at a concrete fallback table. -/
theorem C5_fallback_primary_field_witness :
    ([(⟨"fldA", "A", "number", none, none, none, none⟩ : ApiField),
      ⟨"fldB", "B", "singleLineText", none, none, some true, none⟩] ≠ ([] : List ApiField)) ∧
    Table.hasValidPrimary
      (AITableService.buildFallbackTable ⟨"ds1", "Sheet", "Datasheet"⟩
        [⟨"fldA", "A", "number", none, none, none, none⟩,
         ⟨"fldB", "B", "singleLineText", none, none, some true, none⟩] []) = true ∧
    (AITableService.buildFallbackTable ⟨"ds1", "Sheet", "Datasheet"⟩
        [⟨"fldA", "A", "number", none, none, none, none⟩,
         ⟨"fldB", "B", "singleLineText", none, none, some true, none⟩] []).primaryFieldId =
      "fldB" :=
  ⟨by decide,
   (C5_fallback_primary_field ⟨"ds1", "Sheet", "Datasheet"⟩
     [⟨"fldA", "A", "number", none, none, none, none⟩,
      ⟨"fldB", "B", "singleLineText", none, none, some true, none⟩] [] (by decide)).1,
   rfl⟩


/-- A string with a `' > '` separator inside is never empty. -/
theorem sepAppend_ne_empty (a b : String) : a ++ " > " ++ b ≠ "" := by
  intro h
  have h2 := congrArg String.length h
  simp [String.length_append] at h2
  exact absurd h2.1.2 (by decide)

/-- Appending one more ancestor name extends the accumulated path with a
separator. -/
theorem ancPath_append (a : String) (rest : List String) (n : String) :
    ancPath ((a :: rest) ++ [n]) = ancPath (a :: rest) ++ " > " ++ n := by
  induction rest generalizing a with
  | nil => rfl
  | cons b rest' ih =>
    show ancPath (a :: (b :: rest') ++ [n]) = _
    have h1 : ancPath (a :: (b :: rest') ++ [n]) = a ++ " > " ++ ancPath ((b :: rest') ++ [n]) := rfl
    rw [h1, ih b]
    show _ = (a ++ " > " ++ ancPath (b :: rest')) ++ " > " ++ n
    simp [String.append_assoc]

/-- For a nonempty ancestor list, the spec's joined path is the accumulated
path followed by the separator and the final name. -/
theorem joinPath_eq_ancPath (a : String) (rest : List String) (name : String) :
    joinPath (a :: rest) name = ancPath (a :: rest) ++ " > " ++ name := by
  induction rest generalizing a with
  | nil => rfl
  | cons b rest' ih =>
    show a ++ " > " ++ joinPath (b :: rest') name = _
    rw [ih b]
    show _ = (a ++ " > " ++ ancPath (b :: rest')) ++ " > " ++ name
    simp [String.append_assoc]

/-- The accumulated path of a nonempty ancestor list whose first name is
nonempty is itself nonempty. -/
theorem ancPath_cons_ne_empty (a : String) (rest : List String) (ha : a ≠ "") :
    ancPath (a :: rest) ≠ "" := by
  cases rest with
  | nil => exact ha
  | cons b rest' => exact sepAppend_ne_empty a (ancPath (b :: rest'))

mutual

/-- Under successful fetches and nonempty folder names, `processNode` with an
accumulated path string produces exactly the spec's reachable-datasheet list
with `' > '`-joined ancestor paths. -/
theorem processNode_eq_spec (sp : String) :
    ∀ (t : NTree) (anc : List String) (s : String),
      NTree.allOk t = true → NTree.foldersNamed t = true →
      ((anc = [] ∧ s = "") ∨ (anc ≠ [] ∧ s = ancPath anc ∧ s ≠ "")) →
      AITableService.processNode sp s t = specDatasheets sp anc t
  | .mk ok d cs, anc, s, hok, hnm, hgp => by
    simp only [NTree.allOk] at hok
    have hokT : ok = true := by
      cases ok
      · simp at hok
      · rfl
    have hokF : NTree.allOkForest cs = true := by
      cases h : NTree.allOkForest cs
      · rw [hokT, h] at hok; simp at hok
      · rfl
    simp only [NTree.foldersNamed] at hnm
    have hnmF : NTree.foldersNamedForest cs = true := by
      cases h : NTree.foldersNamedForest cs
      · rw [h] at hnm; simp at hnm
      · rfl
    have hcur : (if s = "" then d.name else s ++ " > " ++ d.name) = joinPath anc d.name ∨
        ¬ (anc = [] ∧ s = "") ∧ False ∨ True := Or.inr (Or.inr trivial)
    by_cases hd : d.type = "Datasheet"
    · have hpath : (if s = "" then d.name else s ++ " > " ++ d.name) = joinPath anc d.name := by
        rcases hgp with ⟨hanc, hs⟩ | ⟨hanc, hs, hsne⟩
        · subst hanc; subst hs; simp [joinPath]
        · rw [hs] at hsne ⊢
          rw [if_neg hsne]
          cases anc with
          | nil => exact absurd rfl hanc
          | cons a rest => rw [joinPath_eq_ancPath]
      simp only [AITableService.processNode, specDatasheets, hokT, if_true, hd, if_pos rfl]
      rw [hpath]
    · by_cases he : cs.isEmpty = false
      · by_cases hf : d.type = "Folder"
        · have hname : d.name ≠ "" := by
            rw [hf] at hnm
            simp at hnm
            intro heq
            rcases hnm with ⟨h1, _⟩
            exact h1 heq
          have hgp' : ((anc ++ [d.name] = [] ∧
                (if s = "" then d.name else s ++ " > " ++ d.name) = "") ∨
              (anc ++ [d.name] ≠ [] ∧
                (if s = "" then d.name else s ++ " > " ++ d.name) = ancPath (anc ++ [d.name]) ∧
                (if s = "" then d.name else s ++ " > " ++ d.name) ≠ "")) := by
            rcases hgp with ⟨hanc, hs⟩ | ⟨hanc, hs, hsne⟩
            · subst hanc; subst hs
              exact Or.inr ⟨by simp, by simp [ancPath], by simpa using hname⟩
            · rw [hs] at hsne ⊢
              rw [if_neg hsne]
              cases anc with
              | nil => exact absurd rfl hanc
              | cons a rest =>
                exact Or.inr ⟨by simp, (ancPath_append a rest d.name).symm,
                  sepAppend_ne_empty _ _⟩
          have hrec := processForest_eq_spec sp cs (anc ++ [d.name])
            (if s = "" then d.name else s ++ " > " ++ d.name) hokF hnmF hgp'
          simp only [AITableService.processNode, specDatasheets, hokT, if_true, if_neg hd,
            if_pos (And.intro hf he), if_pos hf]
          exact hrec
        · simp only [AITableService.processNode, specDatasheets, hokT, if_true, if_neg hd]
          rw [if_neg (by intro hc; exact hf hc.1), if_neg hf]
      · have hcs : cs = [] := by
          cases cs
          · rfl
          · simp [List.isEmpty] at he
        subst hcs
        by_cases hf : d.type = "Folder"
        · simp only [AITableService.processNode, specDatasheets, hokT, if_true, if_neg hd,
            if_pos hf]
          rw [if_neg (by intro hc; exact absurd hc.2 (by simp [List.isEmpty]))]
          rfl
        · simp only [AITableService.processNode, specDatasheets, hokT, if_true, if_neg hd,
            if_neg hf]
          rw [if_neg (by intro hc; exact hf hc.1)]

/-- Forest version of `processNode_eq_spec`. -/
theorem processForest_eq_spec (sp : String) :
    ∀ (ts : List NTree) (anc : List String) (s : String),
      NTree.allOkForest ts = true → NTree.foldersNamedForest ts = true →
      ((anc = [] ∧ s = "") ∨ (anc ≠ [] ∧ s = ancPath anc ∧ s ≠ "")) →
      AITableService.processChildren sp s ts = specForest sp anc ts
  | [], _, _, _, _, _ => rfl
  | t :: ts, anc, s, hok, hnm, hgp => by
    simp only [NTree.allOkForest, Bool.and_eq_true] at hok
    simp only [NTree.foldersNamedForest, Bool.and_eq_true] at hnm
    simp only [AITableService.processChildren, specForest]
    rw [processNode_eq_spec sp t anc s hok.1 hnm.1 hgp,
      processForest_eq_spec sp ts anc s hok.2 hnm.2 hgp]

end


/-- Claim C6, counterexample: under a root folder whose name is the empty
string, the code drops the empty accumulated path (the JS truthiness check
`nodePath ? ... : name`), so the datasheet's path is `"Invoices"` while the
claim's ancestor-join prescribes `" > Invoices"`. -/
theorem C6_counterexample :
    AITableService.getAllDatasheets "sp1" (.ok [exampleEmptyNameTree]) =
      [⟨"ds1", "Invoices", "Invoices", "sp1"⟩] ∧
    specForest "sp1" [] [exampleEmptyNameTree] =
      [⟨"ds1", "Invoices", " > Invoices", "sp1"⟩] ∧
    (" > Invoices" : String) ≠ "Invoices" :=
  ⟨rfl, rfl, by decide⟩

/-- Claim C6, amended: for every node tree in which all fetches succeed and
every folder has a nonempty name, `getAllDatasheets` returns exactly (up to
the sibling order, root datasheets being emitted before folder subtrees) one
`DatasheetInfo` per reachable datasheet node, whose path is the names of its
ancestor folders from the root joined by `' > '` and ending in the
datasheet's own name — a root datasheet's path being its bare name.  (A
folder with an empty name is dropped from its descendants' paths, as the
counterexample shows.) -/
theorem C6_path_construction (sp : String) (nodes : List NTree)
    (hok : NTree.allOkForest nodes = true) (hnm : NTree.foldersNamedForest nodes = true) :
    (AITableService.getAllDatasheets sp (.ok nodes)).Perm (specForest sp [] nodes) := by
  induction nodes with
  | nil => simp [AITableService.getAllDatasheets, AITableService.processChildren, specForest]
  | cons t rest ih =>
    simp only [NTree.allOkForest, Bool.and_eq_true] at hok
    simp only [NTree.foldersNamedForest, Bool.and_eq_true] at hnm
    have ihp := ih hok.2 hnm.2
    simp only [AITableService.getAllDatasheets] at ihp ⊢
    obtain ⟨ok, d, cs⟩ := t
    simp only [List.filter_cons, NTree.dataOf, beq_iff_eq]
    by_cases hd : d.type = "Datasheet"
    · have hnf : d.type ≠ "Folder" := by rw [hd]; decide
      rw [if_pos hd, if_neg hnf]
      have hspecT : specDatasheets sp [] (.mk ok d cs) = [⟨d.id, d.name, d.name, sp⟩] := by
        simp only [specDatasheets]
        rw [if_pos hd]
        rfl
      simp only [specForest, hspecT, List.map_cons, NTree.dataOf, List.cons_append,
        List.nil_append]
      exact List.Perm.cons _ ihp
    · by_cases hf : d.type = "Folder"
      · rw [if_neg hd, if_pos hf]
        have hspec := processNode_eq_spec sp (.mk ok d cs) [] "" hok.1 hnm.1 (Or.inl ⟨rfl, rfl⟩)
        simp only [specForest, AITableService.processChildren]
        rw [hspec]
        refine List.Perm.trans (List.perm_append_comm_assoc _ _ _) ?_
        exact List.Perm.append_left _ ihp
      · rw [if_neg hd, if_neg hf]
        have hspec0 : specDatasheets sp [] (.mk ok d cs) = [] := by
          simp only [specDatasheets]
          rw [if_neg hd, if_neg hf]
        simp only [specForest, hspec0, List.nil_append]
        exact ihp

/-- Witness for C6's amended theorem at the spec's example tree
`Root Folder > Sub Folder > Invoices`. -/
theorem C6_path_construction_witness :
    NTree.allOkForest [exampleSpecTree] = true ∧
    NTree.foldersNamedForest [exampleSpecTree] = true ∧
    (AITableService.getAllDatasheets "sp1" (.ok [exampleSpecTree])).Perm
      (specForest "sp1" [] [exampleSpecTree]) ∧
    AITableService.getAllDatasheets "sp1" (.ok [exampleSpecTree]) =
      [⟨"ds1", "Invoices", "Root Folder > Sub Folder > Invoices", "sp1"⟩] :=
  ⟨rfl, rfl, C6_path_construction "sp1" [exampleSpecTree] rfl rfl, rfl⟩


/-- Visiting a concatenation of sibling lists concatenates their results. -/
theorem processChildren_append (sp s : String) (l1 l2 : List NTree) :
    AITableService.processChildren sp s (l1 ++ l2) =
      AITableService.processChildren sp s l1 ++ AITableService.processChildren sp s l2 := by
  induction l1 with
  | nil => rfl
  | cons t ts ih => simp [AITableService.processChildren, ih]

/-- A node whose detail fetch fails contributes nothing: the catch inside
`processNode` swallows the error and returns without touching the
accumulator. -/
theorem processNode_broken (sp s : String) (b : NTree) (h : b.fetchOkOf = false) :
    AITableService.processNode sp s b = [] := by
  obtain ⟨ok, d, cs⟩ := b
  simp only [NTree.fetchOkOf] at h
  subst h
  simp [AITableService.processNode]

/-- Claim C7: the embedded `getAllDatasheets`/`processNode` are total — every
fetch failure is caught, so no error ever propagates to the caller — and a
fetch failure on a single node removes exactly that node's subtree: visiting
siblings around a broken node gives the same result as if the broken node
were absent, so every datasheet discoverable from the sibling subtrees is
still returned; likewise at the top level for a broken root folder. -/
theorem C7_broken_node_skips_subtree :
    (∀ (sp s : String) (pre post : List NTree) (b : NTree), b.fetchOkOf = false →
      AITableService.processChildren sp s (pre ++ b :: post) =
        AITableService.processChildren sp s (pre ++ post)) ∧
    (∀ (sp : String) (pre post : List NTree) (b : NTree), b.fetchOkOf = false →
      b.dataOf.type = "Folder" →
      AITableService.getAllDatasheets sp (.ok (pre ++ b :: post)) =
        AITableService.getAllDatasheets sp (.ok (pre ++ post))) := by
  constructor
  · intro sp s pre post b hb
    rw [processChildren_append, processChildren_append]
    simp [AITableService.processChildren, processNode_broken sp s b hb]
  · intro sp pre post b hb hf
    simp only [AITableService.getAllDatasheets]
    have hnd : b.dataOf.type ≠ "Datasheet" := by rw [hf]; decide
    simp only [List.filter_append, List.filter_cons, beq_iff_eq]
    rw [if_neg hnd, if_pos hf]
    rw [processChildren_append, processChildren_append]
    simp [AITableService.processChildren, processNode_broken sp "" b hb]

/-- Witness for C7: a broken folder sibling does not hide the datasheet
discoverable under the healthy sibling subtree. -/
theorem C7_broken_node_skips_subtree_witness :
    NTree.fetchOkOf exampleBrokenTree = false ∧
    (NTree.dataOf exampleBrokenTree).type = "Folder" ∧
    AITableService.getAllDatasheets "sp1" (.ok [exampleSpecTree, exampleBrokenTree]) =
      AITableService.getAllDatasheets "sp1" (.ok [exampleSpecTree]) ∧
    AITableService.getAllDatasheets "sp1" (.ok [exampleSpecTree, exampleBrokenTree]) =
      [⟨"ds1", "Invoices", "Root Folder > Sub Folder > Invoices", "sp1"⟩] :=
  ⟨rfl, rfl,
   C7_broken_node_skips_subtree.2 "sp1" [exampleSpecTree] [] exampleBrokenTree rfl rfl,
   rfl⟩


/-- Claim C8, counterexample: `fldBogus` is not a text-typed field of the
target table, yet the wired `AITableService.searchRecords` performs no
validation at all — it issues the search request (trace `[primary]`) and
returns the server's records instead of failing with a validation error. -/
theorem C8_counterexample :
    ((cTableNoText.fields.filter (fun f => searchableFieldTypes.contains f.type)).map
      (fun f => f.id)).contains "fldBogus" = false ∧
    AITableService.searchRecords ["fldBogus"] cSearchSrvWired =
      (.ok [⟨"rec1", [("name", "Test Record")]⟩], [DialectCall.primary]) :=
  ⟨rfl, rfl⟩

/-- Claim C8, amended: it is the legacy `AirtableService.searchRecords`
(src/unnamed/part_006) that validates `fieldIds`: when the table has at least
one text-typed field and the request names an id outside that set, the
operation fails with `Invalid fields requested: ...` listing exactly the
offending ids (the given id among them) and never issues the search request;
the wired `AITableService.searchRecords` skips validation entirely.  (When
the table has no text-typed field at all, the legacy code fails earlier with
the generic `No text fields available to search`, still without issuing a
search.) -/
theorem C8_legacy_field_validation (baseId tableId term : String) (req : List String)
    (srv : SearchLegacySrv) (tables : List TableL) (table : TableL) (fid : String)
    (hschema : srv.schema = .ok tables)
    (hfind : tables.find? (fun t => t.id == tableId) = some table)
    (hsearchable :
      ((table.fields.filter (fun f => searchableFieldTypes.contains f.type)).map
        (fun f => f.id)).isEmpty = false)
    (hmem : fid ∈ req)
    (hbad : ((table.fields.filter (fun f => searchableFieldTypes.contains f.type)).map
        (fun f => f.id)).contains fid = false) :
    AirtableService.searchRecords baseId tableId term (some req) srv =
      (.error ("Invalid fields requested: " ++ String.intercalate ", "
        (req.filter (fun g =>
          !((table.fields.filter (fun f => searchableFieldTypes.contains f.type)).map
            (fun f => f.id)).contains g))), false) ∧
    fid ∈ req.filter (fun g =>
      !((table.fields.filter (fun f => searchableFieldTypes.contains f.type)).map
        (fun f => f.id)).contains g) := by
  have hmemInv : fid ∈ req.filter (fun g =>
      !((table.fields.filter (fun f => searchableFieldTypes.contains f.type)).map
        (fun f => f.id)).contains g) :=
    List.mem_filter.mpr ⟨hmem, by rw [hbad]; rfl⟩
  refine ⟨?_, hmemInv⟩
  have hreqne : req.isEmpty = false := by
    cases req
    · cases hmem
    · rfl
  have hinvne : (req.filter (fun g =>
      !((table.fields.filter (fun f => searchableFieldTypes.contains f.type)).map
        (fun f => f.id)).contains g)).isEmpty = false := by
    cases hinv : req.filter (fun g =>
        !((table.fields.filter (fun f => searchableFieldTypes.contains f.type)).map
          (fun f => f.id)).contains g)
    · rw [hinv] at hmemInv; cases hmemInv
    · rfl
  simp only [AirtableService.searchRecords, hschema,
    AirtableService.validateAndGetSearchFields, hfind]
  rw [if_neg (by rw [hsearchable]; simp)]
  rw [if_neg (by rw [hreqne]; simp)]
  rw [if_neg (by rw [hinvne]; simp)]

/-- Witness for C8's amended theorem: requesting `fldBogus` on a table whose
only text field is `fldTxt` yields the naming validation error and issues no
search request. -/
theorem C8_legacy_field_validation_witness :
    AirtableService.searchRecords "base1" "tbl1" "x" (some ["fldBogus"]) cLegacySearchSrv =
      (.error "Invalid fields requested: fldBogus", false) :=
  ((C8_legacy_field_validation "base1" "tbl1" "x" ["fldBogus"] cLegacySearchSrv
    [cTableWithText] cTableWithText "fldBogus" rfl rfl rfl (by decide) rfl).1).trans rfl

/-- Claim C9, counterexample: the escaping in the src/unnamed/part_008 copy of
`searchRecords` replaces only double quotes — a lone backslash is left
unescaped (the spec-mandated escaping would produce two backslashes), and the
resulting string literal is malformed: the backslash swallows the closing
quote and the literal never terminates. -/
theorem C9_counterexample :
    escapeQuotes ['\\'] = ['\\'] ∧
    escapeFormulaChars ['\\'] = ['\\', '\\'] ∧
    escapeQuotes ['\\'] ≠ escapeFormulaChars ['\\'] ∧
    parseStringLit (escapeQuotes ['\\'] ++ ['"']) = none ∧
    AITableServiceV8.escapeTerm "\\" = "\\" :=
  ⟨rfl, rfl, by decide, rfl, rfl⟩

/-- Claim C9, amended: the escaping of `AirtableService.searchRecords`
(src/unnamed/part_006) does replace every double quote and backslash with its
backslash-prefixed form; the resulting formula string literal is well-formed
for any term and parsing it recovers exactly the literal term (round-trip),
hence the escaping is injective.  The quote-only escaping of the part_008
copy does not have this property (see the counterexample). -/
theorem C9_escape_roundtrip :
    (∀ (term rest : List Char),
      parseStringLit (escapeFormulaChars term ++ '"' :: rest) = some (term, rest)) ∧
    (∀ s1 s2 : List Char, escapeFormulaChars s1 = escapeFormulaChars s2 → s1 = s2) ∧
    (∀ (t : String) (rest : List Char),
      parseStringLit ((AirtableService.escapeTerm t).data ++ '"' :: rest) =
        some (t.data, rest)) := by
  have main : ∀ (term rest : List Char),
      parseStringLit (escapeFormulaChars term ++ '"' :: rest) = some (term, rest) := by
    intro term
    induction term with
    | nil =>
      intro rest
      show parseStringLit ('"' :: rest) = some ([], rest)
      rw [parseStringLit.eq_def]
      simp
    | cons c cs ih =>
      intro rest
      by_cases hc : c = '"' ∨ c = '\\'
      · simp only [escapeFormulaChars, if_pos hc, List.cons_append]
        rw [parseStringLit.eq_def]
        simp [ih]
      · have hc1 : ¬ c = '"' := fun h => hc (Or.inl h)
        have hc2 : ¬ c = '\\' := fun h => hc (Or.inr h)
        simp only [escapeFormulaChars, if_neg hc, List.cons_append]
        rw [parseStringLit.eq_def]
        simp [hc1, hc2, ih]
  refine ⟨main, ?_, ?_⟩
  · intro s1 s2 h
    have h2 := main s2 []
    rw [← h] at h2
    have h3 := (main s1 []).symm.trans h2
    simpa using h3
  · intro t rest
    exact main t.data rest

/-- Witness for C9's amended theorem at a concrete term containing a quote
and a backslash. -/
theorem C9_escape_roundtrip_witness :
    escapeFormulaChars ['a', '"', '\\'] = escapeFormulaChars ['a', '"', '\\'] ∧
    (['a', '"', '\\'] : List Char) = ['a', '"', '\\'] ∧
    parseStringLit (escapeFormulaChars ['a', '"', '\\'] ++ '"' :: []) =
      some (['a', '"', '\\'], []) :=
  ⟨rfl, C9_escape_roundtrip.2.1 ['a', '"', '\\'] ['a', '"', '\\'] rfl,
   C9_escape_roundtrip.1 ['a', '"', '\\'] []⟩

/-- Filtering the deleted entries then projecting ids equals the spec's
order-preserving selection. -/
theorem filter_deleted_eq_filterMap (l : List DeleteResult) :
    (l.filter (fun r => r.deleted)).map (fun r => r.recordId) = deletedIdsSpec l := by
  induction l with
  | nil => rfl
  | cons r rest ih =>
    by_cases h : r.deleted
    · simp [deletedIdsSpec, List.filter_cons, List.filterMap_cons, h]
      simpa [deletedIdsSpec] using ih
    · simp [deletedIdsSpec, List.filter_cons, List.filterMap_cons, h]
      simpa [deletedIdsSpec] using ih

/-- Claim C10: on a schema-valid delete response, `deleteRecords` returns
exactly the ids of the entries whose `deleted` flag is true, in
server-response order; entries with `deleted = false` are silently omitted
rather than reported as failures. -/
theorem C10_deleteRecords_filters_deleted (response : Except String (List DeleteResult))
    (results : List DeleteResult) (h : response = .ok results) :
    AITableService.deleteRecords response = .ok (deletedIdsSpec results) := by
  subst h
  simp only [AITableService.deleteRecords]
  rw [filter_deleted_eq_filterMap]

/-- Witness for C10 at a concrete mixed response. -/
theorem C10_deleteRecords_filters_deleted_witness :
    AITableService.deleteRecords (.ok [⟨"recA", true⟩, ⟨"recB", false⟩, ⟨"recC", true⟩]) =
      .ok ["recA", "recC"] :=
  (C10_deleteRecords_filters_deleted _ [⟨"recA", true⟩, ⟨"recB", false⟩, ⟨"recC", true⟩]
    rfl).trans rfl

end Aitable
